import Mathlib

/-!
# Verification of the ServerMgr process-supervision core

This development is a shallow embedding of the `servermgr` package
(`servermgr/base.py`, `servermgr/postgres.py`, `servermgr/nginx.py`).
Pure control flow is translated into Lean functions; the interactions of
the code with the outside world (the OS clock, the worker process, the
network, subprocess spawning) are passed in explicitly as environment
records whose fields give the outcome of the k-th external call.  The
polling loop of `Manager.ready_wait` is written with explicit fuel: the
function returns `none` when the fuel runs out before the loop decides,
and every theorem about a completed run supplies enough fuel.

Machine details kept from the source:

* `WorkerError(exception, *args)` stores a wrapped cause and a tuple of
  message arguments; we keep both fields (`WError`).
* `Manager.ready_wait` polls first, then calls `health()`, and reads the
  clock only after a *failed* health probe; the order of these three
  observations per iteration is preserved.
* `MultiprocessingWrapper.poll` returns the Python value `True` (not the
  exit status) once the forked worker is no longer alive; the embedding
  uses an explicit Python-value type `PyPoll` to keep `None`, `True` and
  integer statuses distinct.
-/

/-- A socket-level connection error (`socket.error`). -/
structure SocketError where
  msg : String
deriving DecidableEq, Repr

/-- An OS-level spawn error (`OSError`): `errno` and mutable `strerror`. -/
structure OSError where
  errno : Int
  strerror : String
deriving DecidableEq, Repr

/-- `base.WorkerError(exception, *args)`: a wrapped cause plus the
positional message arguments.  Arguments that are Python `None` are
`Option.none`. -/
structure WError where
  cause : Option String
  args : List (Option String)
deriving DecidableEq, Repr

/-- The state of one worker process handle that `ready_wait` can consult
without the environment: whether a readable standard-error stream is
attached (`hasattr(process, "stderr") and process.stderr`), and the text
a read of that stream would return. -/
structure ProcHandle where
  hasStderr : Bool
  stderrData : String
deriving DecidableEq, Repr

/-- `base.Manager`: display name plus ownership of at most one process
handle (`self._process`). -/
structure Manager where
  name : String
  process : Option ProcHandle
deriving DecidableEq, Repr

/-- External observations consumed by one run of `Manager.ready_wait`.
`poll k` is the result of the k-th `self.process.poll()` call (`none` =
still running, `some c` = exited with status `c`); `healthOk k` tells
whether the k-th `self.health()` call returns normally (`false` = it
raises `WorkerError`); `timeAt k` is the `time.time()` reading during
iteration k (the value the timeout check reads, and the ghost time at
which iteration k's health probe completes); `startTime` is the
`time.time()` reading taken on entry. -/
structure Env where
  poll : Nat → Option Int
  healthOk : Nat → Bool
  timeAt : Nat → ℚ
  startTime : ℚ

/-- Side effects `ready_wait`/`stop`/`wait` perform on the process
handle. -/
inductive HandleAct
  | terminate
  | wait
deriving DecidableEq, Repr

/-- How one run of `ready_wait` ended.  `ready k` records the iteration
whose health probe succeeded; the error constructors carry the data of
the `WorkerError` raised on that path. -/
inductive RWOutcome
  | ready (k : Nat)
  | errNoSubprocess (msg : String)
  | errTimeout (msg : String)
  | errExited (cause : String) (errors : Option String)
deriving DecidableEq, Repr

/-- Result of a completed `ready_wait` run: the outcome, the final value
of `self.process`, and the actions performed on the handle. -/
structure RWResult where
  outcome : RWOutcome
  process : Option ProcHandle
  actions : List HandleAct
deriving DecidableEq, Repr

/-- The stderr captured on the unexpected-exit path of `ready_wait`:
`errors = self.process.stderr.read()` when a stream is attached, Python
`None` otherwise. -/
def capturedStderr (h : ProcHandle) : Option String :=
  if h.hasStderr then some h.stderrData else none

/-- The polling loop of `Manager.ready_wait` (base.py lines 230-256),
one Lean recursion step per loop iteration `k`:

* `status = self.process.poll()` — loop exits to the unexpected-exit
  branch when it returns a status;
* `self.health()` — on success return (worker Ready, handle kept);
* `if time.time() - start_time > timeout:` terminate, wait, clear the
  handle, raise the "Taking too long to start." error;
* otherwise sleep and re-poll.

`fuel` bounds the number of iterations modelled; `none` means the loop
was still running when the fuel ran out. -/
def rwLoop (env : Env) (name : String) (h : ProcHandle) (timeout : ℚ) :
    Nat → Nat → Option RWResult
  | 0, _ => none
  | fuel + 1, k =>
    match env.poll k with
    | some _ =>
        some ⟨RWOutcome.errExited name (capturedStderr h), none, []⟩
    | none =>
        if env.healthOk k then
          some ⟨RWOutcome.ready k, some h, []⟩
        else if env.timeAt k - env.startTime > timeout then
          some ⟨RWOutcome.errTimeout (name ++ " Taking too long to start."),
                none, [HandleAct.terminate, HandleAct.wait]⟩
        else
          rwLoop env name h timeout fuel (k + 1)

/-- `Manager.ready_wait(timeout)` (base.py lines 216-256): fail
immediately when no process handle is owned, otherwise run the polling
loop. -/
def ready_wait (env : Env) (m : Manager) (timeout : ℚ) (fuel : Nat) :
    Option RWResult :=
  match m.process with
  | none => some ⟨RWOutcome.errNoSubprocess (m.name ++ " No subprocess"), none, []⟩
  | some h => rwLoop env m.name h timeout fuel 0

/-- `Manager.stop(wait)` (base.py lines 258-272): when a process is
owned, terminate it, wait for it when the flag is set, and clear the
handle; otherwise do nothing.  Returns the updated manager and the
actions performed. -/
def Manager.stop (m : Manager) (w : Bool) : Manager × List HandleAct :=
  match m.process with
  | none => (m, [])
  | some _ =>
      ({ m with process := none },
       HandleAct.terminate :: (if w then [HandleAct.wait] else []))

/-- `Manager.wait()` (base.py lines 274-279): when a process is owned,
block until it exits, then clear the handle. -/
def Manager.waitWorker (m : Manager) : Manager × List HandleAct :=
  match m.process with
  | none => (m, [])
  | some _ => ({ m with process := none }, [HandleAct.wait])

/-- The network as seen through `socket.create_connection((host, port))`:
the outcome of one connection attempt to `host:port` (`ok` = a listener
accepted the connection, `error` = `socket.error` was raised). -/
structure Net where
  createConnection : String → Int → Except SocketError Unit

/-- `base.address_in_use` (base.py lines 79-94): try to connect; `true`
on success, `false` when `socket.error` is raised.  Total — no exception
escapes. -/
def address_in_use (net : Net) (host : String) (port : Int) : Bool :=
  match net.createConnection host port with
  | Except.ok _ => true
  | Except.error _ => false

/-- `base.address_free_check` (base.py lines 96-108): raise
`WorkerError(None, "address already in use", host, port)` when
`address_in_use` reports a listener. -/
def address_free_check (net : Net) (host : String) (port : Int) :
    Except WError Unit :=
  if address_in_use net host port then
    Except.error ⟨none, [some "address already in use", some host,
                         some (toString port)]⟩
  else
    Except.ok ()

/-- A Python value a `poll()` call can return: `None` (still running),
the constant `True`, or an integer exit status. -/
inductive PyPoll
  | pyNone
  | pyTrue
  | pyInt (n : Int)
deriving DecidableEq, Repr

/-- A `multiprocessing.Process` as `MultiprocessingWrapper.poll`
observes it: whether `is_alive()` is true, and the exit status the
worker actually exited with (`exitcode`, which `poll` never reads). -/
structure MProcess where
  alive : Bool
  exitcode : Int
deriving DecidableEq, Repr

/-- `base.MultiprocessingWrapper` around a forked worker. -/
structure MultiprocessingWrapper where
  process : MProcess
deriving DecidableEq, Repr

/-- `MultiprocessingWrapper.poll` (base.py lines 142-146): `None` while
`is_alive()`, otherwise the literal `True`. -/
def MultiprocessingWrapper.poll (w : MultiprocessingWrapper) : PyPoll :=
  if w.process.alive then PyPoll.pyNone else PyPoll.pyTrue

/-- A `subprocess.Popen` as its `poll()` observes it: whether the child
is still running, and its exit status once it has exited. -/
structure SubProcess where
  running : Bool
  returncode : Int
deriving DecidableEq, Repr

/-- `base.SubprocessWrapper` around an exec'd program. -/
structure SubprocessWrapper where
  process : SubProcess
deriving DecidableEq, Repr

/-- Modelled from the spec: `SubprocessWrapper` defines no `poll` of its
own; `poll()` is delegated (via `__getattr__`) to `subprocess.Popen.poll`,
a Python standard-library call outside this repository, which per the
spec is non-blocking and returns "still running" or the exit status. -/
def SubprocessWrapper.poll (w : SubprocessWrapper) : PyPoll :=
  if w.process.running then PyPoll.pyNone else PyPoll.pyInt w.process.returncode

/-- The network as seen through `urllib.urlopen(url)`: either the body
of the HTTP response, or the message of the `IOError` the call raised. -/
structure HttpEnv where
  urlopen : String → Except String String

/-- The URL `nginx.Manager.health` requests (nginx.py line 231). -/
def nginx_status_url (host : String) (port : Int) : String :=
  "http://" ++ host ++ ":" ++ toString port ++ "/nginx_status"

/-- `nginx.Manager.health` (nginx.py lines 223-233): GET the status URL;
the response object is discarded; `IOError` becomes `WorkerError(ex)`. -/
def nginx_health (net : HttpEnv) (host : String) (port : Int) :
    Except WError Unit :=
  match net.urlopen (nginx_status_url host port) with
  | Except.ok _ => Except.ok ()
  | Except.error e => Except.error ⟨some e, []⟩

/-- The health check as the claim words it (spec §6): the GET succeeds
only when the response begins with the literal prefix
"Active connections:" (the check the test suite, tests/nginx.py line 32,
performs).  Declared only to compare with `nginx_health`. -/
def nginx_health_claim (net : HttpEnv) (host : String) (port : Int) :
    Except WError Unit :=
  match net.urlopen (nginx_status_url host port) with
  | Except.ok body =>
      if body.startsWith "Active connections:" then Except.ok ()
      else Except.error ⟨none, [some "health check failed"]⟩
  | Except.error e => Except.error ⟨some e, []⟩

/-- The PATH element postgres.py `_env_with_postgres_path` appends:
`"/usr/lib/postgresql/%s/bin" % pg_version`. -/
def pg_path_element (v : String) : String :=
  "/usr/lib/postgresql/" ++ v ++ "/bin"

/-- `postgres.Manager`: the base Manager state plus the construction
parameters `start` and `health` read. -/
structure PgManager where
  base : Manager
  host : String
  port : Int
  db_dir : String
  pg_version : String
deriving DecidableEq, Repr

/-- The argv `postgres.Manager.start` passes to `subprocess.Popen`
(postgres.py lines 179-182). -/
def pg_argv (m : PgManager) : List String :=
  ["postgres", "-D", m.db_dir, "-h", m.host, "-p", toString m.port]

/-- Externally visible steps `postgres.Manager.start` takes, in order:
the address-free precondition probe, and the subprocess launch. -/
inductive PgEffect
  | addrCheck (host : String) (port : Int)
  | spawn (argv : List String)
deriving DecidableEq, Repr

/-- What `start` can raise: a `WorkerError` (from the precondition or
from `ready_wait`), or an unwrapped `OSError` from the launch itself. -/
inductive StartErr
  | workerErr (e : WError)
  | osErr (e : OSError)
deriving DecidableEq, Repr

/-- The OS as seen through `subprocess.Popen(argv, ...)`: a process
handle, or the `OSError` the spawn raised. -/
structure SpawnEnv where
  popen : List String → Except OSError ProcHandle

/-- Result of a completed `postgres.Manager.start` run: how it ended,
the manager state afterwards, and the external steps taken in order. -/
structure StartResult where
  outcome : Except StartErr Unit
  mgr : PgManager
  effects : List PgEffect
deriving Repr

/-- The `WorkerError` data carried by each failing `ready_wait` outcome
(`none` for the successful outcome). -/
def werrOfOutcome : RWOutcome → Option WError
  | RWOutcome.ready _ => none
  | RWOutcome.errNoSubprocess msg => some ⟨none, [some msg]⟩
  | RWOutcome.errTimeout msg => some ⟨none, [some msg]⟩
  | RWOutcome.errExited cause errs => some ⟨some cause, [errs]⟩

/-- `postgres.Manager.start` (postgres.py lines 168-190):
`address_free_check` first; then `subprocess.Popen`, whose `OSError` is
re-raised after appending `": postgres; new path element:" + path` to
its `strerror`; on success the handle is assigned to `self.process` and,
when `wait` is set, `ready_wait(timeout)` runs.  `none` = the polling
loop ran out of fuel. -/
def PgManager.start (net : Net) (sp : SpawnEnv) (env : Env) (m : PgManager)
    (w : Bool) (timeout : ℚ) (fuel : Nat) : Option StartResult :=
  match address_free_check net m.host m.port with
  | Except.error e =>
      some ⟨Except.error (StartErr.workerErr e), m, [PgEffect.addrCheck m.host m.port]⟩
  | Except.ok _ =>
    match sp.popen (pg_argv m) with
    | Except.error ex =>
        some ⟨Except.error (StartErr.osErr
                ⟨ex.errno, ex.strerror ++ ": postgres; new path element:" ++
                           pg_path_element m.pg_version⟩),
              m, [PgEffect.addrCheck m.host m.port, PgEffect.spawn (pg_argv m)]⟩
    | Except.ok h =>
      let started : PgManager := { m with base := { m.base with process := some h } }
      let effs := [PgEffect.addrCheck m.host m.port, PgEffect.spawn (pg_argv m)]
      if w then
        match ready_wait env started.base timeout fuel with
        | none => none
        | some r =>
          let final : PgManager :=
            { started with base := { started.base with process := r.process } }
          match werrOfOutcome r.outcome with
          | none => some ⟨Except.ok (), final, effs⟩
          | some e => some ⟨Except.error (StartErr.workerErr e), final, effs⟩
      else
        some ⟨Except.ok (), started, effs⟩

/-- Environment in which the worker always reports running, every
health probe succeeds, and the probes complete 100 time units after the
start: the code's first (and only) health call finishes long after a
budget of 10 has elapsed, yet the loop never looks at the clock before
a successful probe. -/
def envSlowProbe : Env := ⟨fun _ => none, fun _ => true, fun _ => 100, 0⟩

/-- A handle with no stderr stream attached. -/
def handleA : ProcHandle := ⟨false, ""⟩

/-- A manager that owns `handleA`. -/
def mgrA : Manager := ⟨"Svc", some handleA⟩

/-- Environment in which the worker runs, the first probe succeeds, and
every clock reading is at the start time. -/
def envQuick : Env := ⟨fun _ => none, fun _ => true, fun _ => 0, 0⟩

/-- Environment in which the worker never exits, health never succeeds,
and the clock reads elapsed time `k` at iteration `k`. -/
def envStuck : Env := ⟨fun _ => none, fun _ => false, fun k => (k : ℚ), 0⟩

/-- A handle with a stderr stream holding diagnostic text. -/
def handleB : ProcHandle := ⟨true, "bind: address already in use"⟩

/-- A manager that owns `handleB`. -/
def mgrB : Manager := ⟨"Svc", some handleB⟩

/-- Environment in which the worker is found exited on the second poll. -/
def envDies : Env :=
  ⟨fun k => if k = 1 then some 1 else none, fun _ => false, fun _ => 0, 0⟩

/-- A network on which every connection attempt is accepted. -/
def netBusy : Net := ⟨fun _ _ => Except.ok ()⟩

/-- A postgres manager configured for localhost:15432, not yet
started. -/
def pgA : PgManager :=
  ⟨⟨"Postgres", none⟩, "localhost", 15432, "/var/tmp/pg_data", "9.1"⟩

/-- A spawner whose every launch raises `OSError(2, ...)` — the
executable is not on `PATH`. -/
def spawnENOENT : SpawnEnv :=
  ⟨fun _ => Except.error ⟨2, "No such file or directory"⟩⟩

/-- A network on which every connection attempt is refused (no
listener). -/
def netQuiet : Net := ⟨fun _ _ => Except.error ⟨"connection refused"⟩⟩

/-- An HTTP layer whose every GET returns a body that does not begin
with the nginx status prefix. -/
def httpGarbage : HttpEnv := ⟨fun _ => Except.ok "garbage"⟩

/-- An HTTP layer on which every GET raises `IOError`. -/
def httpDown : HttpEnv := ⟨fun _ => Except.error "Connection refused"⟩

example :
    ready_wait ⟨fun _ => none, fun k => k == 1, fun k => (k : ℚ), 0⟩
      ⟨"X", some ⟨true, "e"⟩⟩ 10 5 =
      some ⟨RWOutcome.ready 1, some ⟨true, "e"⟩, []⟩ := by
  norm_num [ready_wait, rwLoop]

example :
    ready_wait ⟨fun _ => none, fun _ => false, fun k => (k : ℚ), 0⟩
      ⟨"X", some ⟨true, "e"⟩⟩ 2 9 =
      some ⟨RWOutcome.errTimeout "X Taking too long to start.", none,
            [HandleAct.terminate, HandleAct.wait]⟩ := by
  norm_num [ready_wait, rwLoop]
  rfl

example :
    ready_wait ⟨fun k => if k == 2 then some 1 else none, fun _ => false,
        fun _ => (0 : ℚ), 0⟩
      ⟨"X", some ⟨true, "boom"⟩⟩ 10 9 =
      some ⟨RWOutcome.errExited "X" (some "boom"), none, []⟩ := by
  norm_num [ready_wait, rwLoop, capturedStderr]

lemma rwLoop_succ (env : Env) (name : String) (h : ProcHandle) (t : ℚ)
    (fuel k : Nat) :
    rwLoop env name h t (fuel + 1) k =
      match env.poll k with
      | some _ => some ⟨RWOutcome.errExited name (capturedStderr h), none, []⟩
      | none =>
        if env.healthOk k then
          some ⟨RWOutcome.ready k, some h, []⟩
        else if env.timeAt k - env.startTime > t then
          some ⟨RWOutcome.errTimeout (name ++ " Taking too long to start."),
                none, [HandleAct.terminate, HandleAct.wait]⟩
        else
          rwLoop env name h t fuel (k + 1) := rfl

/-- The loop succeeds at iteration `j` whenever the worker is running
and healthy there and every earlier iteration (from the loop entry `k`)
kept polling: running, health failing, observed elapsed time within the
budget. -/
lemma rwLoop_ready_complete (env : Env) (name : String) (h : ProcHandle)
    (t : ℚ) : ∀ (fuel k j : Nat), k ≤ j → j < k + fuel →
    env.poll j = none → env.healthOk j = true →
    (∀ i, k ≤ i → i < j → env.poll i = none ∧ env.healthOk i = false ∧
        env.timeAt i - env.startTime ≤ t) →
    rwLoop env name h t fuel k = some ⟨RWOutcome.ready j, some h, []⟩ := by
  intro fuel
  induction fuel with
  | zero => intro k j hkj hlt _ _ _; omega
  | succ fuel ih =>
    intro k j hkj hlt hpj hhj hpre
    rw [rwLoop_succ]
    rcases Nat.eq_or_lt_of_le hkj with heq | hklt
    · subst heq
      simp [hpj, hhj]
    · obtain ⟨hpk, hhk, htk⟩ := hpre k le_rfl hklt
      simp only [hpk, hhk, Bool.false_eq_true, if_false]
      rw [if_neg (not_lt.mpr htk)]
      exact ih (k + 1) j hklt (by omega) hpj hhj
        (fun i hi hij => hpre i (by omega) hij)

/-- If a completed loop run reports `ready j`, then the run entered at
`k ≤ j`, iteration `j` saw the worker running with a successful health
probe, every iteration in between kept polling within the budget, and
the result keeps the handle and performs no action on it. -/
lemma rwLoop_ready_sound (env : Env) (name : String) (h : ProcHandle)
    (t : ℚ) : ∀ (fuel k j : Nat) (r : RWResult),
    rwLoop env name h t fuel k = some r → r.outcome = RWOutcome.ready j →
    k ≤ j ∧ j < k + fuel ∧ env.poll j = none ∧ env.healthOk j = true ∧
    (∀ i, k ≤ i → i < j → env.poll i = none ∧ env.healthOk i = false ∧
        env.timeAt i - env.startTime ≤ t) ∧
    r = ⟨RWOutcome.ready j, some h, []⟩ := by
  intro fuel
  induction fuel with
  | zero => intro k j r hr; simp [rwLoop] at hr
  | succ fuel ih =>
    intro k j r hr hout
    rw [rwLoop_succ] at hr
    cases hpk : env.poll k with
    | some c =>
      simp only [hpk, Option.some.injEq] at hr
      rw [← hr] at hout
      simp at hout
    | none =>
      cases hhk : env.healthOk k with
      | true =>
        simp only [hpk, hhk, if_true, Option.some.injEq] at hr
        rw [← hr] at hout
        simp only [RWOutcome.ready.injEq] at hout
        subst hout
        exact ⟨le_rfl, by omega, hpk, hhk, fun i hi hij => by omega, hr.symm⟩
      | false =>
        simp only [hpk, hhk, Bool.false_eq_true, if_false] at hr
        by_cases htk : env.timeAt k - env.startTime > t
        · rw [if_pos htk] at hr
          simp only [Option.some.injEq] at hr
          rw [← hr] at hout
          simp at hout
        · rw [if_neg htk] at hr
          obtain ⟨hkj, hjlt, hpj, hhj, hpre, hres⟩ := ih (k + 1) j r hr hout
          refine ⟨by omega, by omega, hpj, hhj, ?_, hres⟩
          intro i hi hij
          rcases Nat.eq_or_lt_of_le hi with heq | hlt
          · subst heq
            exact ⟨hpk, hhk, not_lt.mp htk⟩
          · exact hpre i hlt hij

/-- If the worker never exits and health never succeeds, the loop fails
with the startup-timeout error as soon as a clock reading past the
budget is observed: terminate then wait, clear the handle. -/
lemma rwLoop_timeout_complete (env : Env) (name : String) (h : ProcHandle)
    (t : ℚ) (hrun : ∀ i, env.poll i = none)
    (hbad : ∀ i, env.healthOk i = false) :
    ∀ (fuel k N : Nat), k ≤ N → N < k + fuel →
    env.timeAt N - env.startTime > t →
    rwLoop env name h t fuel k =
      some ⟨RWOutcome.errTimeout (name ++ " Taking too long to start."),
            none, [HandleAct.terminate, HandleAct.wait]⟩ := by
  intro fuel
  induction fuel with
  | zero => intro k N hkN hlt _; omega
  | succ fuel ih =>
    intro k N hkN hlt htN
    rw [rwLoop_succ]
    simp only [hrun k, hbad k, Bool.false_eq_true, if_false]
    by_cases htk : env.timeAt k - env.startTime > t
    · rw [if_pos htk]
    · rw [if_neg htk]
      have hne : k ≠ N := fun he => htk (he ▸ htN)
      exact ih (k + 1) N (by omega) (by omega) htN

/-- If the worker exits at iteration `j` while every earlier iteration
kept polling, the loop ends in the unexpected-exit branch: stderr is
captured when a stream is attached, the handle is cleared, no action is
performed on the (already dead) worker. -/
lemma rwLoop_exited_complete (env : Env) (name : String) (h : ProcHandle)
    (t : ℚ) : ∀ (fuel k j : Nat) (c : Int), k ≤ j → j < k + fuel →
    env.poll j = some c →
    (∀ i, k ≤ i → i < j → env.poll i = none ∧ env.healthOk i = false ∧
        env.timeAt i - env.startTime ≤ t) →
    rwLoop env name h t fuel k =
      some ⟨RWOutcome.errExited name (capturedStderr h), none, []⟩ := by
  intro fuel
  induction fuel with
  | zero => intro k j c hkj hlt _ _; omega
  | succ fuel ih =>
    intro k j c hkj hlt hpj hpre
    rw [rwLoop_succ]
    rcases Nat.eq_or_lt_of_le hkj with heq | hklt
    · subst heq
      simp [hpj]
    · obtain ⟨hpk, hhk, htk⟩ := hpre k le_rfl hklt
      simp only [hpk, hhk, Bool.false_eq_true, if_false]
      rw [if_neg (not_lt.mpr htk)]
      exact ih (k + 1) j c hklt (by omega) hpj
        (fun i hi hij => hpre i (by omega) hij)

/-- The timeout branch is the only branch of the loop that performs any
action on the worker; in particular `terminate` is only ever issued
there. -/
lemma rwLoop_terminate_only (env : Env) (name : String) (h : ProcHandle)
    (t : ℚ) : ∀ (fuel k : Nat) (r : RWResult),
    rwLoop env name h t fuel k = some r →
    HandleAct.terminate ∈ r.actions →
    r.outcome = RWOutcome.errTimeout (name ++ " Taking too long to start.") := by
  intro fuel
  induction fuel with
  | zero => intro k r hr; simp [rwLoop] at hr
  | succ fuel ih =>
    intro k r hr hmem
    rw [rwLoop_succ] at hr
    cases hpk : env.poll k with
    | some c =>
      simp only [hpk, Option.some.injEq] at hr
      rw [← hr] at hmem
      simp at hmem
    | none =>
      cases hhk : env.healthOk k with
      | true =>
        simp only [hpk, hhk, if_true, Option.some.injEq] at hr
        rw [← hr] at hmem
        simp at hmem
      | false =>
        simp only [hpk, hhk, Bool.false_eq_true, if_false] at hr
        by_cases htk : env.timeAt k - env.startTime > t
        · rw [if_pos htk] at hr
          simp only [Option.some.injEq] at hr
          rw [← hr]
        · rw [if_neg htk] at hr
          exact ih (k + 1) r hr hmem

/-- Every non-ready result of the loop leaves the handle cleared. -/
lemma rwLoop_failure_clears (env : Env) (name : String) (h : ProcHandle)
    (t : ℚ) : ∀ (fuel k : Nat) (r : RWResult),
    rwLoop env name h t fuel k = some r →
    (∀ j, r.outcome ≠ RWOutcome.ready j) →
    r.process = none := by
  intro fuel
  induction fuel with
  | zero => intro k r hr; simp [rwLoop] at hr
  | succ fuel ih =>
    intro k r hr hnr
    rw [rwLoop_succ] at hr
    cases hpk : env.poll k with
    | some c =>
      simp only [hpk, Option.some.injEq] at hr
      rw [← hr]
    | none =>
      cases hhk : env.healthOk k with
      | true =>
        simp only [hpk, hhk, if_true, Option.some.injEq] at hr
        exact absurd (by rw [← hr]) (hnr k)
      | false =>
        simp only [hpk, hhk, Bool.false_eq_true, if_false] at hr
        by_cases htk : env.timeAt k - env.startTime > t
        · rw [if_pos htk] at hr
          simp only [Option.some.injEq] at hr
          rw [← hr]
        · rw [if_neg htk] at hr
          exact ih (k + 1) r hr hnr

lemma ready_wait_eq_loop (env : Env) (m : Manager) (t : ℚ) (fuel : Nat)
    (h : ProcHandle) (hp : m.process = some h) :
    ready_wait env m t fuel = rwLoop env m.name h t fuel 0 := by
  unfold ready_wait
  rw [hp]

/-- C1, counterexample.  The claim requires that `ready_wait` return
successfully *only if* a health probe succeeds strictly before `timeout`
seconds have elapsed.  In `envSlowProbe` with `timeout = 10` the run
returns successfully at iteration 0, whose single health probe completes
at elapsed time 100 > 10: `ready_wait` reads the clock only *after* a
failed probe, so a slow successful probe is accepted arbitrarily late.
-/
theorem c1_counterexample :
    ready_wait envSlowProbe mgrA 10 3 =
      some ⟨RWOutcome.ready 0, some handleA, []⟩ ∧
    envSlowProbe.timeAt 0 - envSlowProbe.startTime > 10 := by
  constructor
  · norm_num [ready_wait, rwLoop, envSlowProbe, mgrA]
  · norm_num [envSlowProbe]

/-- C1, amended.  A completed `ready_wait` run on an owned handle
returns successfully iff some iteration `j` sees the worker still
running with a successful health probe while every earlier iteration
saw it running, its probe failing, and an observed elapsed time of at
most `timeout`; the successful probe itself is not required to complete
before `timeout` elapses, because the clock is consulted only after a
failed probe. -/
theorem c1_ready_iff (env : Env) (m : Manager) (h : ProcHandle) (t : ℚ)
    (fuel : Nat) (r : RWResult) (hp : m.process = some h)
    (hr : ready_wait env m t fuel = some r) :
    (∃ j, r.outcome = RWOutcome.ready j) ↔
      ∃ j, j < fuel ∧ env.poll j = none ∧ env.healthOk j = true ∧
        ∀ i, i < j → env.poll i = none ∧ env.healthOk i = false ∧
          env.timeAt i - env.startTime ≤ t := by
  rw [ready_wait_eq_loop env m t fuel h hp] at hr
  constructor
  · rintro ⟨j, hout⟩
    obtain ⟨-, hjlt, hpj, hhj, hpre, -⟩ :=
      rwLoop_ready_sound env m.name h t fuel 0 j r hr hout
    exact ⟨j, by omega, hpj, hhj, fun i hij => hpre i (Nat.zero_le i) hij⟩
  · rintro ⟨j, hjlt, hpj, hhj, hpre⟩
    have hc := rwLoop_ready_complete env m.name h t fuel 0 j (Nat.zero_le j)
      (by omega) hpj hhj (fun i _ hij => hpre i hij)
    have h2 : (⟨RWOutcome.ready j, some h, []⟩ : RWResult) = r :=
      Option.some.inj (hc.symm.trans hr)
    exact ⟨j, by rw [← h2]⟩

/-- C1, witness: the amended equivalence instantiated on a concrete run
that succeeds at iteration 0. -/
theorem c1_witness :
    mgrA.process = some handleA ∧
    ready_wait envQuick mgrA 10 3 =
      some ⟨RWOutcome.ready 0, some handleA, []⟩ ∧
    ((∃ j, (⟨RWOutcome.ready 0, some handleA, []⟩ : RWResult).outcome =
        RWOutcome.ready j) ↔
      ∃ j, j < 3 ∧ envQuick.poll j = none ∧ envQuick.healthOk j = true ∧
        ∀ i, i < j → envQuick.poll i = none ∧ envQuick.healthOk i = false ∧
          envQuick.timeAt i - envQuick.startTime ≤ 10) :=
  ⟨rfl, by norm_num [ready_wait, rwLoop, mgrA, handleA, envQuick],
   c1_ready_iff envQuick mgrA handleA 10 3 _ rfl
     (by norm_num [ready_wait, rwLoop, mgrA, handleA, envQuick])⟩

/-- C2.  On an owned handle, if the worker keeps reporting running and
health never succeeds, then as soon as any iteration observes elapsed
time strictly above `timeout` the run fails with the
"Taking too long to start." `WorkerError`, having issued `terminate()`
then `wait()` and cleared the handle; moreover, across *all* runs of
`ready_wait`, `terminate` is issued only on that timeout branch. -/
theorem c2_timeout_kills (env : Env) (m : Manager) (h : ProcHandle)
    (t : ℚ) (fuel N : Nat) (hp : m.process = some h)
    (hrun : ∀ i, env.poll i = none) (hbad : ∀ i, env.healthOk i = false)
    (hN : N < fuel) (htN : env.timeAt N - env.startTime > t) :
    ready_wait env m t fuel =
      some ⟨RWOutcome.errTimeout (m.name ++ " Taking too long to start."),
            none, [HandleAct.terminate, HandleAct.wait]⟩ ∧
    ∀ (env' : Env) (m' : Manager) (t' : ℚ) (fuel' : Nat) (r' : RWResult),
      ready_wait env' m' t' fuel' = some r' →
      HandleAct.terminate ∈ r'.actions →
      r'.outcome =
        RWOutcome.errTimeout (m'.name ++ " Taking too long to start.") := by
  constructor
  · rw [ready_wait_eq_loop env m t fuel h hp]
    exact rwLoop_timeout_complete env m.name h t hrun hbad fuel 0 N
      (Nat.zero_le N) (by omega) htN
  · intro env' m' t' fuel' r' hr' hmem
    cases hp' : m'.process with
    | none =>
      rw [ready_wait, hp'] at hr'
      simp only [Option.some.injEq] at hr'
      rw [← hr'] at hmem
      simp at hmem
    | some h' =>
      rw [ready_wait_eq_loop env' m' t' fuel' h' hp'] at hr'
      exact rwLoop_terminate_only env' m'.name h' t' fuel' 0 r' hr' hmem

/-- C2, witness: a concrete stuck worker with budget 2 is terminated
and reported as taking too long. -/
theorem c2_witness :
    mgrA.process = some handleA ∧
    (∀ i, envStuck.poll i = none) ∧ (∀ i, envStuck.healthOk i = false) ∧
    (3 < 9) ∧ envStuck.timeAt 3 - envStuck.startTime > 2 ∧
    ready_wait envStuck mgrA 2 9 =
      some ⟨RWOutcome.errTimeout (mgrA.name ++ " Taking too long to start."),
            none, [HandleAct.terminate, HandleAct.wait]⟩ :=
  ⟨rfl, fun _ => rfl, fun _ => rfl, by omega,
   by norm_num [envStuck],
   (c2_timeout_kills envStuck mgrA handleA 2 9 3 rfl (fun _ => rfl)
     (fun _ => rfl) (by omega) (by norm_num [envStuck])).1⟩

/-- C3.  On an owned handle, if the worker's poll reports an exit status
at iteration `j` while every earlier iteration saw it running with a
failed probe within the budget, the run fails with
`WorkerError(name, errors)` where `errors` is the stderr text when a
stream is attached (`none` otherwise), and the handle is cleared; the
already-dead worker is not terminated or waited on. -/
theorem c3_unexpected_exit (env : Env) (m : Manager) (h : ProcHandle)
    (t : ℚ) (fuel j : Nat) (c : Int) (hp : m.process = some h)
    (hj : j < fuel) (hexit : env.poll j = some c)
    (hpre : ∀ i, i < j → env.poll i = none ∧ env.healthOk i = false ∧
        env.timeAt i - env.startTime ≤ t) :
    ready_wait env m t fuel =
      some ⟨RWOutcome.errExited m.name (capturedStderr h), none, []⟩ := by
  rw [ready_wait_eq_loop env m t fuel h hp]
  exact rwLoop_exited_complete env m.name h t fuel 0 j c (Nat.zero_le j)
    (by omega) hexit (fun i _ hij => hpre i hij)

/-- C3, witness: a worker that exits with status 1 before ever becoming
healthy; its stderr text is captured in the raised error. -/
theorem c3_witness :
    mgrB.process = some handleB ∧ (1 < 9) ∧ envDies.poll 1 = some 1 ∧
    ready_wait envDies mgrB 10 9 =
      some ⟨RWOutcome.errExited mgrB.name
              (some "bind: address already in use"), none, []⟩ :=
  ⟨rfl, by omega, rfl,
   by
     have := c3_unexpected_exit envDies mgrB handleB 10 9 1 1 rfl (by omega)
       rfl (by intro i hi; interval_cases i; norm_num [envDies])
     simpa [capturedStderr, handleB] using this⟩

/-- C4.  The handle-ownership invariant: a completed `ready_wait` run
clears the handle on every failure outcome and keeps it exactly on the
ready outcome; `stop` and `wait` always leave no handle owned; and a
failed `postgres` `start` on a fresh manager leaves no handle owned, so
retrying `start` is safe. -/
theorem c4_handle_invariant (env : Env) (m : Manager) (t : ℚ)
    (fuel : Nat) (r : RWResult) (w : Bool)
    (hr : ready_wait env m t fuel = some r) :
    ((∀ j, r.outcome ≠ RWOutcome.ready j) → r.process = none) ∧
    (∀ j, r.outcome = RWOutcome.ready j → r.process = m.process) ∧
    (m.stop w).1.process = none ∧
    (Manager.waitWorker m).1.process = none ∧
    (∀ (net : Net) (sp : SpawnEnv) (env' : Env) (pm : PgManager)
       (w' : Bool) (t' : ℚ) (fuel' : Nat) (res : StartResult),
      PgManager.start net sp env' pm w' t' fuel' = some res →
      pm.base.process = none →
      (∃ e, res.outcome = Except.error e) →
      res.mgr.base.process = none) := by
  refine ⟨?_, ?_, ?_, ?_, ?_⟩
  · intro hnr
    cases hp : m.process with
    | none =>
      rw [ready_wait, hp] at hr
      simp only [Option.some.injEq] at hr
      rw [← hr]
    | some h =>
      rw [ready_wait_eq_loop env m t fuel h hp] at hr
      exact rwLoop_failure_clears env m.name h t fuel 0 r hr hnr
  · intro j hout
    cases hp : m.process with
    | none =>
      rw [ready_wait, hp] at hr
      simp only [Option.some.injEq] at hr
      rw [← hr] at hout
      simp at hout
    | some h =>
      rw [ready_wait_eq_loop env m t fuel h hp] at hr
      obtain ⟨-, -, -, -, -, hres⟩ :=
        rwLoop_ready_sound env m.name h t fuel 0 j r hr hout
      simp [hres, hp]
  · cases hp : m.process <;> simp [Manager.stop, hp]
  · cases hp : m.process <;> simp [Manager.waitWorker, hp]
  · intro net sp env' pm w' t' fuel' res hres hfresh herr2
    obtain ⟨e, herr⟩ := herr2
    unfold PgManager.start at hres
    cases hfree : address_free_check net pm.host pm.port with
    | error e2 =>
      simp only [hfree, Option.some.injEq] at hres
      rw [← hres]
      exact hfresh
    | ok u =>
      simp only [hfree] at hres
      cases hsp : sp.popen (pg_argv pm) with
      | error ex =>
        simp only [hsp, Option.some.injEq] at hres
        rw [← hres]
        exact hfresh
      | ok hdl =>
        simp only [hsp] at hres
        cases w' with
        | false =>
          simp only [Bool.false_eq_true, if_false, Option.some.injEq] at hres
          rw [← hres] at herr
          simp at herr
        | true =>
          simp only [if_true] at hres
          cases hrw : ready_wait env'
              { name := pm.base.name, process := some hdl } t' fuel' with
          | none =>
            simp only [hrw] at hres
            exact Option.noConfusion hres
          | some r2 =>
            simp only [hrw] at hres
            cases hwo : werrOfOutcome r2.outcome with
            | none =>
              simp only [hwo, Option.some.injEq] at hres
              rw [← hres] at herr
              simp at herr
            | some e2 =>
              simp only [hwo, Option.some.injEq] at hres
              rw [← hres]
              have hnr : ∀ j, r2.outcome ≠ RWOutcome.ready j := by
                intro j hj
                rw [hj] at hwo
                simp [werrOfOutcome] at hwo
              have hp2 : (⟨pm.base.name, some hdl⟩ : Manager).process = some hdl := rfl
              rw [ready_wait_eq_loop env'
                ⟨pm.base.name, some hdl⟩ t' fuel' hdl hp2] at hrw
              exact rwLoop_failure_clears env' pm.base.name hdl t' fuel' 0
                r2 hrw hnr

/-- C4, witness: the invariant applied to a concrete timed-out run —
the failure result owns no handle. -/
theorem c4_witness :
    ready_wait envStuck mgrA 2 9 =
      some ⟨RWOutcome.errTimeout "Svc Taking too long to start.", none,
            [HandleAct.terminate, HandleAct.wait]⟩ ∧
    (⟨RWOutcome.errTimeout "Svc Taking too long to start.", none,
      [HandleAct.terminate, HandleAct.wait]⟩ : RWResult).process = none := by
  have hrun : ready_wait envStuck mgrA 2 9 =
      some ⟨RWOutcome.errTimeout "Svc Taking too long to start.", none,
            [HandleAct.terminate, HandleAct.wait]⟩ := by
    norm_num [ready_wait, rwLoop, envStuck, mgrA]
    rfl
  exact ⟨hrun, (c4_handle_invariant envStuck mgrA 2 9 _ true hrun).1
    (by intro j hj; simp at hj)⟩

/-- C5.  `stop` always leaves no handle owned; a second `stop` right
after is a pure no-op (state unchanged, no action on any worker);
`stop` on a manager that owns nothing is a no-op; and when a handle is
owned, `stop` terminates and, when the flag is set, waits.  `stop` is a
total function of the state — no path raises. -/
theorem c5_stop_idempotent (m : Manager) (w w2 : Bool) (h : ProcHandle) :
    (m.stop w).1.process = none ∧
    ((m.stop w).1.stop w2 = ((m.stop w).1, [])) ∧
    (m.process = none → m.stop w = (m, [])) ∧
    (m.process = some h → (m.stop w).2 =
      HandleAct.terminate :: (if w then [HandleAct.wait] else [])) := by
  refine ⟨?_, ?_, ?_, ?_⟩ <;>
    cases hp : m.process <;> simp [Manager.stop, hp]

/-- C5, witness: stopping a concrete running manager issues terminate
then wait. -/
theorem c5_witness :
    (mgrA.stop true).2 = [HandleAct.terminate, HandleAct.wait] := by
  have := (c5_stop_idempotent mgrA true false handleA).2.2.2 rfl
  simpa using this

/-- C6.  `address_in_use` returns `true` exactly when the connection
attempt succeeds and `false` exactly when it raises `socket.error` — it
is a total Boolean function, no exception escapes; `address_free_check`
raises the `WorkerError` whose arguments carry
"address already in use" (with the probed host and port) precisely when
a listener accepts the connection, and returns normally otherwise. -/
theorem c6_address_probe (net : Net) (host : String) (port : Int) :
    (address_in_use net host port = true ↔
      net.createConnection host port = Except.ok ()) ∧
    (address_in_use net host port = false ↔
      ∃ er, net.createConnection host port = Except.error er) ∧
    ((∃ e, address_free_check net host port = Except.error e ∧
        some "address already in use" ∈ e.args) ↔
      address_in_use net host port = true) ∧
    (address_in_use net host port = true →
      address_free_check net host port =
        Except.error ⟨none, [some "address already in use", some host,
                             some (toString port)]⟩) ∧
    (address_in_use net host port = false →
      address_free_check net host port = Except.ok ()) := by
  cases hc : net.createConnection host port with
  | ok u =>
    cases u
    simp [address_in_use, address_free_check, hc]
  | error er =>
    simp [address_in_use, address_free_check, hc]

/-- C6, witness: probing a busy port raises the address-in-use error. -/
theorem c6_witness :
    address_free_check netBusy "localhost" 5432 =
      Except.error ⟨none, [some "address already in use", some "localhost",
                           some (toString (5432 : Int))]⟩ :=
  (c6_address_probe netBusy "localhost" 5432).2.2.2.1 rfl

/-- C7.  When a live listener already accepts connections on the
configured port, `postgres` `start` fails with the address-in-use
`WorkerError` having performed only the address probe: no subprocess is
spawned and the manager state is unchanged (so a fresh manager still
owns no handle).  Moreover, in every run of `start` whatsoever, the
first external step is the address probe — the check runs strictly
before any launch. -/
theorem c7_busy_port_no_spawn (net : Net) (sp : SpawnEnv) (env : Env)
    (pm : PgManager) (w : Bool) (t : ℚ) (fuel : Nat)
    (hbusy : net.createConnection pm.host pm.port = Except.ok ()) :
    PgManager.start net sp env pm w t fuel =
      some ⟨Except.error (StartErr.workerErr
              ⟨none, [some "address already in use", some pm.host,
                      some (toString pm.port)]⟩), pm,
            [PgEffect.addrCheck pm.host pm.port]⟩ ∧
    (∀ argv, PgEffect.spawn argv ∉ [PgEffect.addrCheck pm.host pm.port]) ∧
    (∀ (net' : Net) (sp' : SpawnEnv) (env' : Env) (pm' : PgManager)
       (w' : Bool) (t' : ℚ) (fuel' : Nat) (res : StartResult),
      PgManager.start net' sp' env' pm' w' t' fuel' = some res →
      res.effects.head? = some (PgEffect.addrCheck pm'.host pm'.port)) := by
  refine ⟨?_, ?_, ?_⟩
  · have h1 : address_free_check net pm.host pm.port =
        Except.error ⟨none, [some "address already in use", some pm.host,
                             some (toString pm.port)]⟩ := by
      simp [address_free_check, address_in_use, hbusy]
    unfold PgManager.start
    simp [h1]
  · intro argv
    simp
  · intro net' sp' env' pm' w' t' fuel' res hres
    unfold PgManager.start at hres
    cases hfree : address_free_check net' pm'.host pm'.port with
    | error e2 =>
      simp only [hfree, Option.some.injEq] at hres
      rw [← hres]
      rfl
    | ok u =>
      simp only [hfree] at hres
      cases hsp : sp'.popen (pg_argv pm') with
      | error ex =>
        simp only [hsp, Option.some.injEq] at hres
        rw [← hres]
        rfl
      | ok hdl =>
        simp only [hsp] at hres
        cases w' with
        | false =>
          simp only [Bool.false_eq_true, if_false, Option.some.injEq] at hres
          rw [← hres]
          rfl
        | true =>
          simp only [if_true] at hres
          cases hrw : ready_wait env'
              { name := pm'.base.name, process := some hdl } t' fuel' with
          | none =>
            simp only [hrw] at hres
            exact Option.noConfusion hres
          | some r2 =>
            simp only [hrw] at hres
            cases hwo : werrOfOutcome r2.outcome with
            | none =>
              simp only [hwo, Option.some.injEq] at hres
              rw [← hres]
              rfl
            | some e2 =>
              simp only [hwo, Option.some.injEq] at hres
              rw [← hres]
              rfl

/-- C7, witness: starting `pgA` when every connection attempt is
accepted fails with the address-in-use error and no spawn effect. -/
theorem c7_witness :
    PgManager.start netBusy spawnENOENT envQuick pgA true 10 3 =
      some ⟨Except.error (StartErr.workerErr
              ⟨none, [some "address already in use", some "localhost",
                      some (toString (15432 : Int))]⟩), pgA,
            [PgEffect.addrCheck "localhost" 15432]⟩ :=
  (c7_busy_port_no_spawn netBusy spawnENOENT envQuick pgA true 10 3 rfl).1

/-- C8, counterexample.  The claim requires the OS launch error to
propagate "with the same content".  The code (postgres.py lines
185-187) mutates the exception's `strerror` — appending the executable
name and the appended PATH element — before re-raising it: the
propagated `strerror` differs from the one the launch raised. -/
theorem c8_counterexample :
    PgManager.start netQuiet spawnENOENT envQuick pgA false 10 3 =
      some ⟨Except.error (StartErr.osErr ⟨2,
              "No such file or directory: postgres; new path element:/usr/lib/postgresql/9.1/bin"⟩),
            pgA, [PgEffect.addrCheck "localhost" 15432,
                  PgEffect.spawn (pg_argv pgA)]⟩ ∧
    "No such file or directory: postgres; new path element:/usr/lib/postgresql/9.1/bin" ≠
      "No such file or directory" := by
  refine ⟨rfl, by decide⟩

/-- C8, amended.  An `OSError` raised by the launch propagates out of
`start` unwrapped — still an `OSError`, never converted to a
`WorkerError`, with its `errno` unchanged and no handle assigned — but
the re-raised object's `strerror` is the original text with
`": postgres; new path element:" + path` appended, not the identical
content. -/
theorem c8_os_error_augmented (net : Net) (sp : SpawnEnv) (env : Env)
    (pm : PgManager) (w : Bool) (t : ℚ) (fuel : Nat) (ex : OSError)
    (hfree : address_in_use net pm.host pm.port = false)
    (hspawn : sp.popen (pg_argv pm) = Except.error ex) :
    PgManager.start net sp env pm w t fuel =
      some ⟨Except.error (StartErr.osErr ⟨ex.errno,
              ex.strerror ++ ": postgres; new path element:" ++
              pg_path_element pm.pg_version⟩), pm,
            [PgEffect.addrCheck pm.host pm.port,
             PgEffect.spawn (pg_argv pm)]⟩ := by
  have h1 : address_free_check net pm.host pm.port = Except.ok () := by
    simp [address_free_check, hfree]
  unfold PgManager.start
  simp [h1, hspawn]

/-- C8, witness: the amended propagation law applied to a concrete
missing-executable launch. -/
theorem c8_witness :
    address_in_use netQuiet pgA.host pgA.port = false ∧
    PgManager.start netQuiet spawnENOENT envQuick pgA true 10 3 =
      some ⟨Except.error (StartErr.osErr ⟨2,
              "No such file or directory" ++ ": postgres; new path element:" ++
              pg_path_element "9.1"⟩),
            pgA, [PgEffect.addrCheck pgA.host pgA.port,
                  PgEffect.spawn (pg_argv pgA)]⟩ :=
  ⟨rfl, c8_os_error_augmented netQuiet spawnENOENT envQuick pgA true 10 3
    ⟨2, "No such file or directory"⟩ rfl rfl⟩

/-- C9, counterexample.  The claim requires `poll()` to return "still
running" or the worker's exit status.  For a forked worker that has
exited with status 3, `MultiprocessingWrapper.poll` (base.py lines
142-146) returns the constant Python `True` — neither "still running"
(`None`) nor the exit status. -/
theorem c9_counterexample :
    MultiprocessingWrapper.poll ⟨⟨false, 3⟩⟩ = PyPoll.pyTrue ∧
    PyPoll.pyTrue ≠ PyPoll.pyNone ∧ PyPoll.pyTrue ≠ PyPoll.pyInt 3 := by
  refine ⟨rfl, by decide, by decide⟩

/-- C9, amended.  Both wrappers' `poll` is a total, non-raising
function of the observed process state and returns `None` exactly while
the worker is alive; once the worker has exited, the exec'd wrapper
(delegating to `subprocess.Popen.poll`) returns the exit status, while
the forked wrapper returns only the constant `True` marker, losing the
status. -/
theorem c9_poll_shapes (mw : MultiprocessingWrapper)
    (sw : SubprocessWrapper) :
    (MultiprocessingWrapper.poll mw = PyPoll.pyNone ↔
      mw.process.alive = true) ∧
    (mw.process.alive = false →
      MultiprocessingWrapper.poll mw = PyPoll.pyTrue) ∧
    (SubprocessWrapper.poll sw = PyPoll.pyNone ↔
      sw.process.running = true) ∧
    (sw.process.running = false →
      SubprocessWrapper.poll sw = PyPoll.pyInt sw.process.returncode) := by
  refine ⟨?_, ?_, ?_, ?_⟩
  · cases h : mw.process.alive <;> simp [MultiprocessingWrapper.poll, h]
  · intro h
    simp [MultiprocessingWrapper.poll, h]
  · cases h : sw.process.running <;> simp [SubprocessWrapper.poll, h]
  · intro h
    simp [SubprocessWrapper.poll, h]

/-- C9, witness: an exited forked worker polls as the constant `True`
marker. -/
theorem c9_witness :
    MultiprocessingWrapper.poll ⟨⟨false, 7⟩⟩ = PyPoll.pyTrue :=
  (c9_poll_shapes ⟨⟨false, 7⟩⟩ ⟨⟨true, 0⟩⟩).2.1 rfl

/-- C10, counterexample.  The claim requires `health()` to fail on any
response that does not begin with the literal status prefix.  The code
(nginx.py lines 223-233) discards the response: a GET returning the
body "garbage" — which does not start with "Active connections:" —
still makes `health()` succeed.  The prefix check the claim describes
exists only in the test suite (tests/nginx.py line 32), captured here
by `nginx_health_claim`. -/
theorem c10_counterexample :
    nginx_health httpGarbage "localhost" 8080 = Except.ok () ∧
    nginx_health_claim httpGarbage "localhost" 8080 =
      Except.error ⟨none, [some "health check failed"]⟩ ∧
    "garbage".startsWith "Active connections:" = false := by
  refine ⟨rfl, rfl, by decide⟩

/-- C10, amended.  `nginx.Manager.health` performs an HTTP GET to the
fixed status URL and succeeds exactly when the GET returns a response —
any response, its body is never inspected; it raises `WorkerError(ex)`
exactly when the GET raises `IOError`. -/
theorem c10_health_ignores_body (net : HttpEnv) (host : String)
    (port : Int) :
    (nginx_health net host port = Except.ok () ↔
      ∃ body, net.urlopen (nginx_status_url host port) = Except.ok body) ∧
    (∀ e, net.urlopen (nginx_status_url host port) = Except.error e →
      nginx_health net host port = Except.error ⟨some e, []⟩) := by
  cases hu : net.urlopen (nginx_status_url host port) with
  | ok body => simp [nginx_health, hu]
  | error e => simp [nginx_health, hu]

/-- C10, witness: a GET that raises makes `health` raise the wrapped
`WorkerError`. -/
theorem c10_witness :
    nginx_health httpDown "localhost" 8080 =
      Except.error ⟨some "Connection refused", []⟩ :=
  (c10_health_ignores_body httpDown "localhost" 8080).2 "Connection refused" rfl
